import Mathlib

/-!
Verification of the MemoryPoolManager repository (src/main.cpp and the
second copy src/unnamed/part_000).

The program is a fixed-block memory pool:

* `class MemoryPool` holds `vector<void*> blocks` (the free set), a
  `blockSize` and a `capacity`.  The constructor pushes `malloc(blockSize)`
  `capacity` times; `allocate` pops the vector's back (throwing
  `std::bad_alloc` when empty); `deallocate` pushes a block back;
  `hasAvailableMemory` reports non-emptiness.
* `PoolAllocator<T>::allocate(n)` returns `nullptr` for `n == 0` and
  otherwise takes exactly one block from the pool, ignoring `n`.
* `make_unique_pool<T>` allocates a block, placement-news a `T` into it and
  wraps it in a `unique_ptr` whose deleter runs `~T()` and then
  `pool.deallocate`.

The shallow embedding below models machine addresses as natural numbers,
with `0` standing for the C++ null pointer, and the system allocator as an
oracle `malloc : Nat → Nat` giving the address returned by the i-th call
(`0` models a `NULL` return, i.e. an allocation failure).
-/

/-- Error thrown by `MemoryPool::allocate`: the C++ code throws
`std::bad_alloc` when the free set is empty; the spec names this
condition `PoolExhausted`. -/
inductive PoolError where
  | poolExhausted
  deriving DecidableEq

/-- Embeds `class MemoryPool` (src/main.cpp lines 10-47).  The field
`blocks` embeds `vector<void*> blocks` in vector order: the vector's back
is the list's last element.  Addresses are naturals, `0` playing the role
of the null pointer. -/
structure MemoryPool where
  blocks : List Nat
  blockSize : Nat
  capacity : Nat
  deriving DecidableEq

/-- Embeds the constructor `MemoryPool::MemoryPool` (lines 17-23): it
executes `blocks.push_back(malloc(blockSize))` for each `i < capacity`.
The system allocator is the oracle `malloc`, giving the address returned
by the i-th `malloc` call; `0` models a `NULL` return.  The C++ code
stores each result unchecked — it never tests for `NULL` and never throws. -/
def MemoryPool.construct (blockSize capacity : Nat) (malloc : Nat → Nat) : MemoryPool :=
  { blocks := (List.range capacity).map malloc
    blockSize := blockSize
    capacity := capacity }

/-- Embeds `MemoryPool::allocate` (lines 31-38): if `blocks` is empty,
throw `bad_alloc`; otherwise return `blocks.back()` and `pop_back` it. -/
def MemoryPool.allocate (p : MemoryPool) : Except PoolError (Nat × MemoryPool) :=
  match p.blocks.getLast? with
  | none => .error .poolExhausted
  | some b => .ok (b, { p with blocks := p.blocks.dropLast })

/-- Embeds `MemoryPool::deallocate` (lines 40-42): `blocks.push_back(block)`. -/
def MemoryPool.deallocate (p : MemoryPool) (block : Nat) : MemoryPool :=
  { p with blocks := p.blocks ++ [block] }

/-- Embeds `MemoryPool::hasAvailableMemory` (lines 44-46):
`return !blocks.empty();`.  The C++ method is `const`; in the embedding
purity is witnessed by the function returning only a `Bool`. -/
def MemoryPool.hasAvailableMemory (p : MemoryPool) : Bool :=
  !p.blocks.isEmpty

/-- `n` consecutive calls to `MemoryPool::allocate` with no intervening
`deallocate`, collecting the returned addresses in call order; the first
thrown `bad_alloc` aborts the sequence. -/
def MemoryPool.allocateN (p : MemoryPool) : Nat → Except PoolError (List Nat × MemoryPool)
  | 0 => .ok ([], p)
  | n + 1 =>
    match p.allocate with
    | .error e => .error e
    | .ok (b, p') =>
      match p'.allocateN n with
      | .error e => .error e
      | .ok (bs, q) => .ok (b :: bs, q)

/-- The pair `deallocate(allocate())`: one allocation immediately returned
to the pool; `none` when the pool is exhausted. -/
def MemoryPool.roundTrip (p : MemoryPool) : Option MemoryPool :=
  match p.allocate with
  | .error _ => none
  | .ok (b, p') => some (p'.deallocate b)

/-- The pair `deallocate(allocate())` repeated `k` times. -/
def MemoryPool.roundTripN (p : MemoryPool) : Nat → Option MemoryPool
  | 0 => some p
  | k + 1 =>
    match p.roundTrip with
    | none => none
    | some q => q.roundTripN k

/-- Embeds `PoolAllocator<T>::allocate(size_t n)` (src/main.cpp lines
62-74): `n == 0` returns `nullptr` (address `0`) without touching the
pool; otherwise it throws `bad_alloc` when `hasAvailableMemory` is false
and else returns `pool.allocate()`.  The element count `n` is never used
past the zero test. -/
def PoolAllocator.allocate (p : MemoryPool) (n : Nat) : Except PoolError (Nat × MemoryPool) :=
  if n = 0 then .ok (0, p)
  else if !p.hasAvailableMemory then .error .poolExhausted
  else p.allocate

/-- Observable events of the typed-object wrapper: running `T`'s
constructor, running `T`'s destructor, and returning a block to the pool. -/
inductive Event where
  | ctor (addr : Nat)
  | dtor (addr : Nat)
  | dealloc (addr : Nat)
  deriving DecidableEq

/-- The typed handle returned by `make_unique_pool`: a
`unique_ptr<T, function<void(T*)>>`, modelled by its stored pointer,
which is `none` once released or moved from. -/
structure UniquePtr where
  ptr : Option Nat
  deriving DecidableEq

/-- Embeds handle release: `unique_ptr` invokes the deleter lambda of
`make_unique_pool` (src/main.cpp lines 100-103) exactly when the stored
pointer is non-null, then clears the pointer.  The deleter runs
`ptr->~T()` and then `pool.deallocate(ptr)`; the returned event list
records that order. -/
def UniquePtr.release (u : UniquePtr) (p : MemoryPool) :
    List Event × UniquePtr × MemoryPool :=
  match u.ptr with
  | none => ([], u, p)
  | some a => ([Event.dtor a, Event.dealloc a], ⟨none⟩, p.deallocate a)

/-- Errors that can escape `make_unique_pool`: `bad_alloc` from
`pool.allocate()` (pool exhausted) or an exception thrown by `T`'s own
constructor. -/
inductive CreateError where
  | poolExhausted
  | ctorError
  deriving DecidableEq

/-- Embeds `make_unique_pool` (src/main.cpp lines 97-113).  The flag
`ctorOk` says whether the placement-new constructor call at line 109
completes (`true`) or throws (`false`).  Returns the result, the pool
state after the call, and the list of wrapper events.  When
`pool.allocate()` throws, the exception propagates before any
construction.  When the constructor throws, the C++ code has no handler:
the block popped by `allocate` is not pushed back, so the pool stays in
its post-allocate state. -/
def make_unique_pool (p : MemoryPool) (ctorOk : Bool) :
    Except CreateError UniquePtr × MemoryPool × List Event :=
  match p.allocate with
  | .error _ => (.error .poolExhausted, p, [])
  | .ok (b, p') =>
    if ctorOk then (.ok ⟨some b⟩, p', [Event.ctor b])
    else (.error .ctorError, p', [Event.ctor b])

/-- A client operation against the pool: one `allocate()` call or one
`deallocate(addr)` call. -/
inductive PoolOp where
  | alloc
  | dealloc (addr : Nat)
  deriving DecidableEq

/-- A pool together with the ghost list of currently checked-out
addresses (blocks handed out by `allocate` and not yet returned). -/
structure PoolState where
  pool : MemoryPool
  checkedOut : List Nat
  deriving DecidableEq

/-- One client step.  An `alloc` that throws leaves the state unchanged.
A `dealloc a` is legal only when `a` is currently checked out — this is
exactly the caller-enforced precondition (only blocks obtained from this
pool, no double free); an illegal step yields `none`. -/
def PoolState.step (s : PoolState) : PoolOp → Option PoolState
  | .alloc =>
    match s.pool.allocate with
    | .error _ => some s
    | .ok (b, p') => some ⟨p', b :: s.checkedOut⟩
  | .dealloc a =>
    if a ∈ s.checkedOut then
      some ⟨s.pool.deallocate a, s.checkedOut.erase a⟩
    else none

/-- Runs a sequence of client operations from a state. -/
def PoolState.run (s : PoolState) : List PoolOp → Option PoolState
  | [] => some s
  | op :: ops =>
    match s.step op with
    | none => none
    | some s' => s'.run ops

/-! ## Helper lemmas -/

theorem MemoryPool.allocateN_all (l : List Nat) (bs cap : Nat) :
    MemoryPool.allocateN ⟨l, bs, cap⟩ l.length = .ok (l.reverse, ⟨[], bs, cap⟩) := by
  induction l using List.reverseRecOn with
  | nil => rfl
  | append_singleton l a ih =>
    simp only [List.length_append, List.length_singleton, MemoryPool.allocateN,
      MemoryPool.allocate, List.getLast?_concat, List.dropLast_concat, ih,
      List.reverse_append, List.reverse_singleton, List.singleton_append]

theorem MemoryPool.roundTrip_eq (p : MemoryPool) (h : p.blocks ≠ []) :
    p.roundTrip = some p := by
  unfold MemoryPool.roundTrip MemoryPool.allocate
  rw [List.getLast?_eq_getLast p.blocks h]
  simp only [MemoryPool.deallocate, List.dropLast_append_getLast h]

theorem MemoryPool.hasAvailableMemory_iff (p : MemoryPool) :
    p.hasAvailableMemory = true ↔ p.blocks ≠ [] := by
  cases hb : p.blocks <;> simp [MemoryPool.hasAvailableMemory, hb]

theorem MemoryPool.allocate_ok (p : MemoryPool) (b : Nat) (q : MemoryPool)
    (h : p.allocate = .ok (b, q)) :
    b ∈ p.blocks ∧ q.blocks ++ [b] = p.blocks := by
  unfold MemoryPool.allocate at h
  cases hg : p.blocks.getLast? with
  | none => rw [hg] at h; cases h
  | some a =>
    rw [hg] at h
    simp only [Except.ok.injEq, Prod.mk.injEq] at h
    obtain ⟨hb, hq⟩ := h
    have hne : p.blocks ≠ [] := by
      intro he
      rw [he] at hg
      cases hg
    rw [List.getLast?_eq_getLast p.blocks hne] at hg
    injection hg with ha
    have hkey : q.blocks ++ [b] = p.blocks := by
      rw [← hq, ← hb, ← ha]
      exact List.dropLast_append_getLast hne
    exact ⟨hkey ▸ List.mem_append_right q.blocks (List.mem_singleton.mpr rfl), hkey⟩

theorem PoolState.step_nodup {s s' : PoolState} {op : PoolOp}
    (hnd : (s.pool.blocks ++ s.checkedOut).Nodup)
    (hstep : s.step op = some s') :
    (s'.pool.blocks ++ s'.checkedOut).Nodup := by
  cases op with
  | alloc =>
    unfold PoolState.step at hstep
    cases hall : s.pool.allocate with
    | error e =>
      rw [hall] at hstep
      simp only [Option.some.injEq] at hstep
      subst hstep
      exact hnd
    | ok bp =>
      obtain ⟨b, p'⟩ := bp
      rw [hall] at hstep
      simp only [Option.some.injEq] at hstep
      subst hstep
      obtain ⟨-, heq⟩ := MemoryPool.allocate_ok s.pool b p' hall
      show (p'.blocks ++ b :: s.checkedOut).Nodup
      have hassoc : p'.blocks ++ b :: s.checkedOut = (p'.blocks ++ [b]) ++ s.checkedOut := by
        simp
      rw [hassoc, heq]
      exact hnd
  | dealloc a =>
    simp only [PoolState.step] at hstep
    by_cases hmem : a ∈ s.checkedOut
    · rw [if_pos hmem] at hstep
      simp only [Option.some.injEq] at hstep
      subst hstep
      show ((s.pool.deallocate a).blocks ++ s.checkedOut.erase a).Nodup
      unfold MemoryPool.deallocate
      have hperm :
          List.Perm ((s.pool.blocks ++ [a]) ++ s.checkedOut.erase a)
            (s.pool.blocks ++ s.checkedOut) := by
        have h1 : (s.pool.blocks ++ [a]) ++ s.checkedOut.erase a
            = s.pool.blocks ++ (a :: s.checkedOut.erase a) := by
          simp
        rw [h1]
        exact List.Perm.append_left s.pool.blocks (List.perm_cons_erase hmem).symm
      exact hperm.nodup_iff.mpr hnd
    · rw [if_neg hmem] at hstep
      cases hstep

theorem PoolState.run_nodup (ops : List PoolOp) :
    ∀ s s' : PoolState, (s.pool.blocks ++ s.checkedOut).Nodup →
      s.run ops = some s' → (s'.pool.blocks ++ s'.checkedOut).Nodup := by
  induction ops with
  | nil =>
    intro s s' hnd h
    unfold PoolState.run at h
    simp only [Option.some.injEq] at h
    subst h
    exact hnd
  | cons op ops ih =>
    intro s s' hnd h
    unfold PoolState.run at h
    cases hst : s.step op with
    | none => rw [hst] at h; cases h
    | some s₁ =>
      rw [hst] at h
      exact ih s₁ s' (PoolState.step_nodup hnd hst) h

/-! ## Claims -/

/-- C1: for every pool constructed with capacity `N` (from a system
allocator returning pairwise-distinct addresses), exactly `N` consecutive
`allocate()` calls succeed and return pairwise-distinct block addresses,
and the `(N+1)`-th call fails with `PoolExhausted` (`bad_alloc`), with no
`deallocate` in between. -/
theorem c1_capacity_alloc_then_exhausted (blockSize N : Nat) (malloc : Nat → Nat)
    (hnd : ((List.range N).map malloc).Nodup) :
    ∃ addrs q,
      (MemoryPool.construct blockSize N malloc).allocateN N = .ok (addrs, q) ∧
        addrs.length = N ∧ addrs.Nodup ∧
        q.allocate = .error PoolError.poolExhausted := by
  refine ⟨((List.range N).map malloc).reverse, ⟨[], blockSize, N⟩, ?_, ?_, ?_, rfl⟩
  · have h := MemoryPool.allocateN_all ((List.range N).map malloc) blockSize N
    simpa [MemoryPool.construct] using h
  · simp
  · simpa using hnd

/-- Witness for C1 at `blockSize = 4`, `N = 2`, allocator `i ↦ i + 1`. -/
theorem c1_witness :
    ∃ addrs q,
      (MemoryPool.construct 4 2 (fun i => i + 1)).allocateN 2 = .ok (addrs, q) ∧
        addrs.length = 2 ∧ addrs.Nodup ∧
        q.allocate = .error PoolError.poolExhausted :=
  c1_capacity_alloc_then_exhausted 4 2 (fun i => i + 1) (by decide)

/-- C2 (code bug): evaluates the constructor at a system allocator that
fails (returns `NULL`, modelled `0`) on its very first request.
Construction nevertheless completes, the null address sits in the free
set, and a later `allocate` hands out `NULL` — the code never fails with
`AllocationFailure` and never releases anything, contradicting the claim
that a failed block request aborts construction without leaks. -/
theorem c2_malloc_failure_unchecked :
    (MemoryPool.construct 8 1 (fun _ => 0)).blocks = [0] ∧
      (MemoryPool.construct 8 1 (fun _ => 0)).allocate = .ok (0, ⟨[], 8, 1⟩) :=
  ⟨rfl, rfl⟩

/-- C3 (code bug): `make_unique_pool` on a one-block pool whose `T`
constructor throws.  Before the call `hasAvailableMemory` is `true`
(count 1); the call propagates the constructor error, yet afterwards the
pool is empty (count 0): the freshly allocated block was not returned,
contradicting the claim that the available count is unchanged. -/
theorem c3_ctor_failure_leaks :
    (⟨[1], 4, 1⟩ : MemoryPool).hasAvailableMemory = true ∧
      (make_unique_pool ⟨[1], 4, 1⟩ false).1 = .error CreateError.ctorError ∧
      (make_unique_pool ⟨[1], 4, 1⟩ false).2.1.blocks = [] ∧
      (make_unique_pool ⟨[1], 4, 1⟩ false).2.1.hasAvailableMemory = false :=
  ⟨rfl, rfl, rfl, rfl⟩

/-- C4: along every legal sequence of `allocate`/`deallocate` calls (no
double free, only blocks obtained from this pool — enforced by
`PoolState.step` returning `none` otherwise) started from a pool with
pairwise-distinct blocks, the free set and the checked-out addresses
remain pairwise distinct and mutually disjoint, and `allocate` never
returns an address that is currently checked out. -/
theorem c4_no_aliasing (ops : List PoolOp) (p₀ : MemoryPool) (h₀ : p₀.blocks.Nodup)
    (s : PoolState) (hrun : PoolState.run ⟨p₀, []⟩ ops = some s) :
    (s.pool.blocks ++ s.checkedOut).Nodup ∧
      ∀ b q, s.pool.allocate = .ok (b, q) → b ∉ s.checkedOut := by
  have hnd : (s.pool.blocks ++ s.checkedOut).Nodup :=
    PoolState.run_nodup ops ⟨p₀, []⟩ s (by simpa using h₀) hrun
  refine ⟨hnd, ?_⟩
  intro b q hall
  obtain ⟨hmem, -⟩ := MemoryPool.allocate_ok s.pool b q hall
  exact List.disjoint_left.mp (List.nodup_append.mp hnd).2.2 hmem

/-- Witness for C4: one `alloc` on the two-block pool `⟨[1, 2], 4, 2⟩`
reaches the state with free set `[1]` and checked-out list `[2]`. -/
theorem c4_witness :
    ((⟨⟨[1], 4, 2⟩, [2]⟩ : PoolState).pool.blocks
        ++ (⟨⟨[1], 4, 2⟩, [2]⟩ : PoolState).checkedOut).Nodup ∧
      ∀ b q, (⟨⟨[1], 4, 2⟩, [2]⟩ : PoolState).pool.allocate = .ok (b, q) →
        b ∉ (⟨⟨[1], 4, 2⟩, [2]⟩ : PoolState).checkedOut :=
  c4_no_aliasing [PoolOp.alloc] ⟨[1, 2], 4, 2⟩ (by decide) ⟨⟨[1], 4, 2⟩, [2]⟩ rfl

/-- C5: on a non-exhausted pool, `deallocate(allocate())` repeated any
number `k` of times leaves the pool (hence its available-block count)
exactly as it was, and a subsequent `allocate()` still succeeds. -/
theorem c5_roundtrip (p : MemoryPool) (k : Nat) (h : p.hasAvailableMemory = true) :
    p.roundTripN k = some p ∧ ∃ b q, p.allocate = .ok (b, q) := by
  have hne : p.blocks ≠ [] := (MemoryPool.hasAvailableMemory_iff p).mp h
  constructor
  · induction k with
    | zero => rfl
    | succ k ih =>
      simp only [MemoryPool.roundTripN, MemoryPool.roundTrip_eq p hne, ih]
  · refine ⟨p.blocks.getLast hne, { p with blocks := p.blocks.dropLast }, ?_⟩
    unfold MemoryPool.allocate
    rw [List.getLast?_eq_getLast p.blocks hne]

/-- Witness for C5 at the one-block pool `⟨[5], 4, 1⟩` and `k = 3`. -/
theorem c5_witness :
    MemoryPool.roundTripN ⟨[5], 4, 1⟩ 3 = some ⟨[5], 4, 1⟩ ∧
      ∃ b q, MemoryPool.allocate ⟨[5], 4, 1⟩ = .ok (b, q) :=
  c5_roundtrip ⟨[5], 4, 1⟩ 3 rfl

/-- C6: releasing a live typed handle runs `T`'s destructor on the value
first and only then calls `deallocate` on the underlying block (the event
list is exactly destructor-then-deallocate, and the resulting pool is
`p.deallocate a`), and this pair executes exactly once per handle: the
released handle's pointer is cleared and a second release emits no
events and changes nothing. -/
theorem c6_release_dtor_then_dealloc_once (u : UniquePtr) (p : MemoryPool) (a : Nat)
    (h : u.ptr = some a) :
    u.release p = ([Event.dtor a, Event.dealloc a], ⟨none⟩, p.deallocate a) ∧
      ∀ q : MemoryPool, UniquePtr.release ⟨none⟩ q = ([], ⟨none⟩, q) := by
  constructor
  · unfold UniquePtr.release
    rw [h]
  · intro q
    rfl

/-- Witness for C6 at handle `⟨some 7⟩` over pool `⟨[1], 4, 2⟩`. -/
theorem c6_witness :
    UniquePtr.release ⟨some 7⟩ ⟨[1], 4, 2⟩ =
        ([Event.dtor 7, Event.dealloc 7], ⟨none⟩, MemoryPool.deallocate ⟨[1], 4, 2⟩ 7) ∧
      ∀ q : MemoryPool, UniquePtr.release ⟨none⟩ q = ([], ⟨none⟩, q) :=
  c6_release_dtor_then_dealloc_once ⟨some 7⟩ ⟨[1], 4, 2⟩ 7 rfl

/-- C7: on an exhausted pool (empty free set) `Create<T>` fails with
`PoolExhausted` without running any constructor (empty event list) and
without changing any pool state: the pool after the failed call is the
pool before it, whatever the constructor would have done. -/
theorem c7_exhausted_create (bs cap : Nat) (ctorOk : Bool) :
    make_unique_pool ⟨[], bs, cap⟩ ctorOk =
      (.error CreateError.poolExhausted, ⟨[], bs, cap⟩, []) :=
  rfl

/-- C8: `allocate()` is deterministic with respect to the free set: two
pools with the same free-set contents in the same order either both fail
with `PoolExhausted`, or both return the same address and are left with
the same free set. -/
theorem c8_allocate_deterministic (p q : MemoryPool) (h : p.blocks = q.blocks) :
    (p.allocate = .error PoolError.poolExhausted ∧
        q.allocate = .error PoolError.poolExhausted) ∨
      ∃ b p' q', p.allocate = .ok (b, p') ∧ q.allocate = .ok (b, q') ∧
        p'.blocks = q'.blocks := by
  unfold MemoryPool.allocate
  rw [h]
  cases hq : q.blocks.getLast? with
  | none => exact Or.inl ⟨rfl, rfl⟩
  | some b =>
    exact Or.inr ⟨b, { p with blocks := q.blocks.dropLast },
      { q with blocks := q.blocks.dropLast }, rfl, rfl, rfl⟩

/-- Witness for C8: two pools sharing the free set `[7]` but differing in
block size and capacity. -/
theorem c8_witness :
    (MemoryPool.allocate ⟨[7], 1, 1⟩ = .error PoolError.poolExhausted ∧
        MemoryPool.allocate ⟨[7], 2, 9⟩ = .error PoolError.poolExhausted) ∨
      ∃ b p' q', MemoryPool.allocate ⟨[7], 1, 1⟩ = .ok (b, p') ∧
        MemoryPool.allocate ⟨[7], 2, 9⟩ = .ok (b, q') ∧ p'.blocks = q'.blocks :=
  c8_allocate_deterministic ⟨[7], 1, 1⟩ ⟨[7], 2, 9⟩ rfl

/-- C9: `hasAvailableMemory()` returns `true` iff the free set is
non-empty; being a plain function of the pool that returns only a `Bool`,
it leaves the free set, block size and capacity unchanged. -/
theorem c9_hasAvailable_iff (p : MemoryPool) :
    p.hasAvailableMemory = true ↔ p.blocks ≠ [] :=
  MemoryPool.hasAvailableMemory_iff p

/-- C10: `PoolAllocator<T>::allocate(n)` returns the null pointer without
touching the pool when `n = 0`; for every `n ≥ 1` the result is
independent of `n` and, on success, exactly one block has been removed
from the pool. -/
theorem c10_poolAllocator_count_independent (p : MemoryPool) (n m : Nat)
    (hn : 1 ≤ n) (hm : 1 ≤ m) :
    PoolAllocator.allocate p 0 = .ok (0, p) ∧
      PoolAllocator.allocate p n = PoolAllocator.allocate p m ∧
      ∀ b q, PoolAllocator.allocate p n = .ok (b, q) →
        q.blocks.length + 1 = p.blocks.length := by
  refine ⟨rfl, ?_, ?_⟩
  · unfold PoolAllocator.allocate
    rw [if_neg (Nat.one_le_iff_ne_zero.mp hn), if_neg (Nat.one_le_iff_ne_zero.mp hm)]
  · intro b q hq
    unfold PoolAllocator.allocate at hq
    rw [if_neg (Nat.one_le_iff_ne_zero.mp hn)] at hq
    by_cases hav : p.hasAvailableMemory = true
    · have hne : p.blocks ≠ [] := (MemoryPool.hasAvailableMemory_iff p).mp hav
      rw [hav] at hq
      simp only [Bool.not_true, Bool.false_eq_true, if_false] at hq
      unfold MemoryPool.allocate at hq
      rw [List.getLast?_eq_getLast p.blocks hne] at hq
      simp only [Except.ok.injEq, Prod.mk.injEq] at hq
      obtain ⟨-, hq2⟩ := hq
      have hlen : p.blocks.length ≠ 0 := by
        simpa [List.length_eq_zero] using hne
      rw [← hq2]
      simp only [List.length_dropLast]
      omega
    · have hav' : p.hasAvailableMemory = false := by
        simpa [Bool.not_eq_true] using hav
      rw [hav'] at hq
      simp only [Bool.not_false, if_true] at hq
      exact absurd hq (by simp)

/-- Witness for C10 at the one-block pool `⟨[6], 4, 1⟩`, `n = 1`, `m = 5`. -/
theorem c10_witness :
    PoolAllocator.allocate ⟨[6], 4, 1⟩ 0 = .ok (0, ⟨[6], 4, 1⟩) ∧
      PoolAllocator.allocate ⟨[6], 4, 1⟩ 1 = PoolAllocator.allocate ⟨[6], 4, 1⟩ 5 ∧
      ∀ b q, PoolAllocator.allocate ⟨[6], 4, 1⟩ 1 = .ok (b, q) →
        q.blocks.length + 1 = (⟨[6], 4, 1⟩ : MemoryPool).blocks.length :=
  c10_poolAllocator_count_independent ⟨[6], 4, 1⟩ 1 5 (by decide) (by decide)
